import Mathlib

set_option maxRecDepth 16000

/-!
Verification of the markdown rendering pipeline of `renderer.py`
(`MarkdownRenderer`: `should_render`, `render`, `_markdown_to_html`).

The Python code is shallowly embedded: Python `str` becomes Lean `String`
(code-point lists), Python `int` becomes `Int`, and the per-line loop of
`_markdown_to_html` becomes a fold over a state record.  Python string
primitives used by the source (`rstrip`, `split`, `join`, `startswith`,
slicing, single-character `replace`) are modelled as executable list
functions below, and the three `re.sub` calls are modelled by leftmost,
non-overlapping scanners with lazy (shortest-first) group matching,
which is the semantics of the patterns `\*\*(.+?)\*\*`, a backtick pair
around `(.+?)`, and `\[(.+?)\]\((.+?)\)` used in the source.
-/

/-- `listStarts p l` is true iff `p` is an initial segment of `l`;
models Python `str.startswith` (on code-point lists). -/
def listStarts : List Char → List Char → Bool
  | [], _ => true
  | _ :: _, [] => false
  | a :: as, b :: bs => a = b && listStarts as bs

/-- Python `line.startswith(p)`. -/
def pyStartswith (p s : String) : Bool :=
  listStarts p.data s.data

/-- ASCII whitespace recognised by Python's argument-less `str.rstrip`
(the inputs of interest contain no non-ASCII whitespace). -/
def isPySpace (c : Char) : Bool :=
  c = ' ' || c = '\t' || c = '\n' || c = '\r' || c = '\x0b' || c = '\x0c'

/-- Drop trailing whitespace of a code-point list. -/
def rstripList (l : List Char) : List Char :=
  (l.reverse.dropWhile isPySpace).reverse

/-- Python `line.rstrip()`. -/
def pyRstrip (s : String) : String :=
  String.mk (rstripList s.data)

/-- Python `s.split(sep)` for a single-character separator, on
code-point lists: `split '\x2f'`-style splitting that keeps empty groups
and yields one group even for the empty input. -/
def pySplitChar (sep : Char) : List Char → List (List Char)
  | [] => [[]]
  | c :: rest =>
    match pySplitChar sep rest with
    | [] => [[]]
    | g :: gs => if c = sep then [] :: g :: gs else (c :: g) :: gs

/-- `markdown.split("\n")` from the source. -/
def pySplitLines (s : String) : List String :=
  (pySplitChar '\n' s.data).map String.mk

/-- Python `sep.join(parts)`. -/
def pyJoin (sep : String) : List String → String
  | [] => ""
  | [s] => s
  | s :: rest => s ++ sep ++ pyJoin sep rest

/-- Python `s.replace(old, new)` for a single-character `old`:
every occurrence of `pat` is replaced by `repl`, left to right. -/
def pyReplaceChar (pat : Char) (repl : List Char) : List Char → List Char
  | [] => []
  | c :: rest => (if c = pat then repl else [c]) ++ pyReplaceChar pat repl rest

/-- The escaping step of `_markdown_to_html`: the three sequential
`replace` calls `&`→`&amp;`, then `<`→`&lt;`, then `>`→`&gt;`. -/
def escapeHtml (s : String) : String :=
  String.mk
    (pyReplaceChar '>' "&gt;".data
      (pyReplaceChar '<' "&lt;".data
        (pyReplaceChar '&' "&amp;".data s.data)))

/-- Per-character view of the escaping step (used to state that the
single pass escapes each special character exactly once). -/
def escChar (c : Char) : List Char :=
  if c = '&' then "&amp;".data
  else if c = '<' then "&lt;".data
  else if c = '>' then "&gt;".data
  else [c]

/-- Python `line[n:]` (code-point slicing). -/
def strDrop (n : Nat) (s : String) : String :=
  String.mk (s.data.drop n)

/-- Per-character characterisation of the whole escaping pass: each
input character is mapped to its escape sequence independently, exactly
once — the form in which absence of double escaping is proved. -/
def escapeAll : List Char → List Char
  | [] => []
  | c :: cs => escChar c ++ escapeAll cs

/-- Number of occurrences of the exact line `x` in a list of emitted
html lines (used to count emitted open and close code-block tags). -/
def countStr (x : String) : List String → Nat
  | [] => 0
  | y :: ys => (if y = x then 1 else 0) + countStr x ys

/-- The backtick character (used by the inline-code pattern). -/
def backtickChar : Char := Char.ofNat 96

/-- Lazy (shortest-first) match of `(.+?)` followed by the literal
delimiter `delim`: returns the (nonempty, newline-free) group and the
remainder after the delimiter, preferring the shortest group, as a
regex engine does for a lazy quantifier. -/
def lazyGroupTo (delim : List Char) : List Char → Option (List Char × List Char)
  | [] => none
  | c :: rest =>
    if c = '\n' then none
    else if listStarts delim rest then some ([c], rest.drop delim.length)
    else
      match lazyGroupTo delim rest with
      | some (g, r) => some (c :: g, r)
      | none => none

/-- One fuelled pass of `re.sub` for the bold pattern `\*\*(.+?)\*\*`
with replacement `<strong>\1</strong>`: leftmost matches, scanning
resumes after each replacement.  The fuel only bounds recursion; it is
instantiated with the input length, which the scan never exhausts since
every step consumes at least one input character. -/
def subBoldFuel : Nat → List Char → List Char
  | 0, cs => cs
  | _ + 1, [] => []
  | fuel + 1, '*' :: '*' :: tl =>
    (match lazyGroupTo ['*', '*'] tl with
     | some (g, r) => "<strong>".data ++ g ++ "</strong>".data ++ subBoldFuel fuel r
     | none => '*' :: subBoldFuel fuel ('*' :: tl))
  | fuel + 1, c :: tl => c :: subBoldFuel fuel tl

/-- `re.sub(r'\*\*(.+?)\*\*', r'<strong>\1</strong>', line)`. -/
def subBold (s : String) : String :=
  String.mk (subBoldFuel s.data.length s.data)

/-- One fuelled pass of `re.sub` for the inline-code pattern (a lazy
group between two backticks) with replacement `<code>\1</code>`. -/
def subCodeFuel : Nat → List Char → List Char
  | 0, cs => cs
  | _ + 1, [] => []
  | fuel + 1, c :: tl =>
    if c = backtickChar then
      match lazyGroupTo [backtickChar] tl with
      | some (g, r) => "<code>".data ++ g ++ "</code>".data ++ subCodeFuel fuel r
      | none => c :: subCodeFuel fuel tl
    else c :: subCodeFuel fuel tl

/-- The inline-code substitution of the source. -/
def subCode (s : String) : String :=
  String.mk (subCodeFuel s.data.length s.data)

/-- Backtracking tail of a link match: after a literal `[`, find the
lazy group `(.+?)`, the literal `](`, the lazy group `(.+?)`, and the
literal `)`; extends the first group (shortest first) when the rest of
the pattern fails, as regex backtracking does. -/
def linkTail : List Char → Option (List Char × List Char × List Char)
  | [] => none
  | c :: rest =>
    if c = '\n' then none
    else
      match rest with
      | ']' :: '(' :: rest2 =>
        (match lazyGroupTo [')'] rest2 with
         | some (g2, r) => some ([c], g2, r)
         | none =>
           match linkTail rest with
           | some (g1, g2, r) => some (c :: g1, g2, r)
           | none => none)
      | _ =>
        match linkTail rest with
        | some (g1, g2, r) => some (c :: g1, g2, r)
        | none => none

/-- One fuelled pass of `re.sub` for the link pattern
`\[(.+?)\]\((.+?)\)` with replacement `<a href="\2">\1</a>`. -/
def subLinkFuel : Nat → List Char → List Char
  | 0, cs => cs
  | _ + 1, [] => []
  | fuel + 1, '[' :: tl =>
    (match linkTail tl with
     | some (g1, g2, r) =>
       "<a href=\"".data ++ g2 ++ "\">".data ++ g1 ++ "</a>".data ++ subLinkFuel fuel r
     | none => '[' :: subLinkFuel fuel tl)
  | fuel + 1, c :: tl => c :: subLinkFuel fuel tl

/-- The link substitution of the source. -/
def subLink (s : String) : String :=
  String.mk (subLinkFuel s.data.length s.data)

/-- Carry-over state of the line loop of `_markdown_to_html`:
the accumulated `html_lines` plus the `in_code_block` and `in_list`
flags. -/
structure TState where
  htmlLines : List String
  inCodeBlock : Bool
  inList : Bool
deriving DecidableEq, Repr

/-- `line.startswith("```")` — a fence line toggles the code block. -/
def isFenceLine (line : String) : Bool :=
  pyStartswith "```" line

/-- A heading line: prefix `### `, `## ` or `# `. -/
def isHeadingLine (line : String) : Bool :=
  pyStartswith "### " line || pyStartswith "## " line || pyStartswith "# " line

/-- A list-item line: prefix `- ` or `* `. -/
def isListItemLine (line : String) : Bool :=
  pyStartswith "- " line || pyStartswith "* " line

/-- A horizontal-rule line: exactly `---` or `***`. -/
def isHrLine (line : String) : Bool :=
  line = "---" || line = "***"

/-- The body of one iteration of the loop of `_markdown_to_html`,
applied to the already-rstripped line, in the source's branch order:
fence toggle, verbatim-inside-code-block, `### `/`## `/`# ` headings,
list items (opening `<ul>` on the first), `---`/`***` rule, blank line
(closing an open list, then `<br>`), and otherwise a paragraph with the
bold, inline-code and link substitutions (closing an open list first). -/
def classifyLine (st : TState) (line : String) : TState :=
  if isFenceLine line then
    if st.inCodeBlock = false then
      { st with inCodeBlock := true, htmlLines := st.htmlLines ++ ["<pre><code>"] }
    else
      { st with inCodeBlock := false, htmlLines := st.htmlLines ++ ["</code></pre>"] }
  else if st.inCodeBlock then
    { st with htmlLines := st.htmlLines ++ [line] }
  else if pyStartswith "### " line then
    { st with htmlLines := st.htmlLines ++ ["<h3>" ++ strDrop 4 line ++ "</h3>"] }
  else if pyStartswith "## " line then
    { st with htmlLines := st.htmlLines ++ ["<h2>" ++ strDrop 3 line ++ "</h2>"] }
  else if pyStartswith "# " line then
    { st with htmlLines := st.htmlLines ++ ["<h1>" ++ strDrop 2 line ++ "</h1>"] }
  else if isListItemLine line then
    if st.inList then
      { st with htmlLines := st.htmlLines ++ ["<li>" ++ strDrop 2 line ++ "</li>"] }
    else
      { st with inList := true,
                htmlLines := st.htmlLines ++ ["<ul>", "<li>" ++ strDrop 2 line ++ "</li>"] }
  else if isHrLine line then
    { st with htmlLines := st.htmlLines ++ ["<hr>"] }
  else if line = "" then
    if st.inList then
      { st with inList := false, htmlLines := st.htmlLines ++ ["</ul>", "<br>"] }
    else
      { st with htmlLines := st.htmlLines ++ ["<br>"] }
  else
    if st.inList then
      { st with inList := false,
                htmlLines := st.htmlLines
                  ++ ["</ul>", "<p>" ++ subLink (subCode (subBold line)) ++ "</p>"] }
    else
      { st with htmlLines := st.htmlLines
                  ++ ["<p>" ++ subLink (subCode (subBold line)) ++ "</p>"] }

/-- One loop iteration on a raw line: `line = line.rstrip()` first,
then the branch chain. -/
def processLine (st : TState) (rawLine : String) : TState :=
  classifyLine st (pyRstrip rawLine)

/-- The whole loop `for line in lines`. -/
def processLines (st : TState) : List String → TState
  | [] => st
  | l :: ls => processLines (processLine st l) ls

/-- State after processing all lines of the (escaped and split) input,
from the initial state of `_markdown_to_html`. -/
def transcodeState (md : String) : TState :=
  processLines ⟨[], false, false⟩ (pySplitLines (escapeHtml md))

/-- The `html_lines` list of `_markdown_to_html` just before the final
join, including the end-of-input `</ul>` for a still-open list. -/
def markdownToHtmlLines (md : String) : List String :=
  let st := transcodeState md
  if st.inList then st.htmlLines ++ ["</ul>"] else st.htmlLines

/-- `MarkdownRenderer._markdown_to_html`. -/
def markdown_to_html (md : String) : String :=
  pyJoin "\n" (markdownToHtmlLines md)

/-- The configuration fields of `MarkdownRenderer` (the two resource
paths set in `__init__` play no role in the verified behaviour). -/
structure MarkdownRenderer where
  render_mode : String
  render_threshold : Int
deriving DecidableEq, Repr

/-- Default value of the `render_mode` parameter of
`MarkdownRenderer.__init__`. -/
def defaultRenderMode : String := "astrbot"

/-- Default value of the `render_threshold` parameter of
`MarkdownRenderer.__init__`. -/
def defaultRenderThreshold : Int := 200

/-- `MarkdownRenderer()` — a renderer constructed with no arguments. -/
def rendererNoArgs : MarkdownRenderer :=
  { render_mode := defaultRenderMode, render_threshold := defaultRenderThreshold }

/-- `MarkdownRenderer.should_render`. -/
def should_render (self : MarkdownRenderer) (content : String) : Bool :=
  if self.render_mode = "plain" then false
  else if self.render_threshold = 0 then true
  else decide ((content.length : Int) > self.render_threshold)

/-- `MarkdownRenderer.render`: dispatch on `render_mode`.  The two
rendering backends `_render_astrbot` and `_render_local` perform I/O
(template loading, HTML painting, encoding) and are abstracted as the
function parameters `astro` and `loc`; the `else` branch returns the
input markdown itself. -/
def render (astro loc : String → String → String)
    (self : MarkdownRenderer) (markdown_content title : String) : String :=
  if self.render_mode = "astrbot" then astro markdown_content title
  else if self.render_mode = "local" then loc markdown_content title
  else markdown_content

example : markdown_to_html "# Title\n\n- a\n- b\n\ntext **bold** end" =
    "<h1>Title</h1>\n<br>\n<ul>\n<li>a</li>\n<li>b</li>\n</ul>\n<br>\n<p>text <strong>bold</strong> end</p>" := by
  decide

example : markdown_to_html "- a\n# x" = "<ul>\n<li>a</li>\n<h1>x</h1>\n</ul>" := by
  decide

example : markdown_to_html "<script>" = "<p>&lt;script&gt;</p>" := by decide

example : markdown_to_html "```\n**not bold**\n```" =
    "<pre><code>\n**not bold**\n</code></pre>" := by decide

/-- C1: `should_render` returns false in plain mode regardless of the
threshold; returns true in a non-plain mode when the threshold is 0; and
in a non-plain mode with a positive threshold T it returns true iff the
content's character length exceeds T. -/
theorem should_render_policy (mode : String) (t : Int) (content : String) :
    (mode = "plain" → should_render ⟨mode, t⟩ content = false)
    ∧ (mode ≠ "plain" → t = 0 → should_render ⟨mode, t⟩ content = true)
    ∧ (mode ≠ "plain" → 0 < t →
        (should_render ⟨mode, t⟩ content = true ↔ (content.length : Int) > t)) := by
  refine ⟨fun h => ?_, fun h h0 => ?_, fun h ht => ?_⟩
  · simp [should_render, h]
  · simp [should_render, h, h0]
  · have h0 : t ≠ 0 := by omega
    simp [should_render, h, h0]

/-- Witness for C1 at concrete inputs: a plain renderer, a rendered one
with threshold 0, and a rendered one with threshold 2 on `"abc"`. -/
theorem should_render_policy_witness :
    should_render ⟨"plain", 0⟩ "abc" = false
    ∧ should_render ⟨"astrbot", 0⟩ "abc" = true
    ∧ (should_render ⟨"astrbot", 2⟩ "abc" = true ↔ ((("abc" : String).length : Int) > 2)) :=
  ⟨(should_render_policy "plain" 0 "abc").1 rfl,
   (should_render_policy "astrbot" 0 "abc").2.1 (by decide) rfl,
   (should_render_policy "astrbot" 2 "abc").2.2 (by decide) (by decide)⟩

/-- C2: in plain mode `render` returns the input markdown itself,
whatever the two rendering backends would do, for every threshold,
markdown and title. -/
theorem render_plain_identity (astro loc : String → String → String)
    (t : Int) (md title : String) :
    render astro loc ⟨"plain", t⟩ md title = md := by
  simp [render]

/-- C9: any `render_mode` other than the two rendered modes `"astrbot"`
and `"local"` — not only `"plain"` — falls through to the `else` branch
and returns the input markdown unchanged. -/
theorem render_unknown_mode_passthrough (astro loc : String → String → String)
    (mode : String) (t : Int) (md title : String)
    (h1 : mode ≠ "astrbot") (h2 : mode ≠ "local") :
    render astro loc ⟨mode, t⟩ md title = md := by
  simp [render, h1, h2]

/-- Witness for C9: the unrecognised mode `"weird"` behaves as
passthrough even for backends that would change the text. -/
theorem render_unknown_mode_passthrough_witness :
    render (fun a _ => a ++ "!") (fun _ _ => "") ⟨"weird", 0⟩ "x" "t" = "x" :=
  render_unknown_mode_passthrough (fun a _ => a ++ "!") (fun _ _ => "")
    "weird" 0 "x" "t" (by decide) (by decide)

/-- C5 counterexample: a renderer constructed with no arguments is NOT
in plain mode — the default `render_mode` is `"astrbot"`, one of the two
rendered modes, and with the default threshold 200 a 201-character
content is selected for image rendering. -/
theorem default_mode_counterexample :
    rendererNoArgs.render_mode = "astrbot"
    ∧ rendererNoArgs.render_mode ≠ "plain"
    ∧ should_render rendererNoArgs (String.mk (List.replicate 201 'a')) = true := by
  refine ⟨rfl, by decide, by decide⟩

/-- C5 amended: the recognised defaults of `MarkdownRenderer.__init__`
are `render_mode = "astrbot"` (a rendered mode, not plain) and
`render_threshold = 200` (a non-negative integer). -/
theorem default_config_amended :
    rendererNoArgs.render_mode = defaultRenderMode
    ∧ defaultRenderMode = "astrbot"
    ∧ rendererNoArgs.render_threshold = 200
    ∧ (0 : Int) ≤ rendererNoArgs.render_threshold
    ∧ rendererNoArgs.render_mode ≠ "plain" := by
  refine ⟨rfl, rfl, rfl, by decide, by decide⟩

/-- C8: the transcoder on `"# Title\n\n- a\n- b\n\ntext **bold** end"`
yields exactly one level-1 heading for Title, one list container with
exactly the two items a and b, and one paragraph with bold wrapped in a
strong element, the list container being closed before the paragraph. -/
theorem roundtrip_structural :
    markdownToHtmlLines "# Title\n\n- a\n- b\n\ntext **bold** end" =
      ["<h1>Title</h1>", "<br>", "<ul>", "<li>a</li>", "<li>b</li>", "</ul>", "<br>",
       "<p>text <strong>bold</strong> end</p>"]
    ∧ markdown_to_html "# Title\n\n- a\n- b\n\ntext **bold** end" =
      "<h1>Title</h1>\n<br>\n<ul>\n<li>a</li>\n<li>b</li>\n</ul>\n<br>\n<p>text <strong>bold</strong> end</p>"
    ∧ (markdownToHtmlLines "# Title\n\n- a\n- b\n\ntext **bold** end").countP
        (fun l => pyStartswith "<h1>" l) = 1
    ∧ (markdownToHtmlLines "# Title\n\n- a\n- b\n\ntext **bold** end").countP
        (fun l => l = "<ul>") = 1
    ∧ (markdownToHtmlLines "# Title\n\n- a\n- b\n\ntext **bold** end").countP
        (fun l => pyStartswith "<li>" l) = 2
    ∧ (markdownToHtmlLines "# Title\n\n- a\n- b\n\ntext **bold** end").countP
        (fun l => pyStartswith "<p>" l) = 1 := by
  refine ⟨by decide, by decide, by decide, by decide, by decide, by decide⟩

/-- C4 counterexample: after list items, a heading line or a
horizontal-rule line does NOT close the open list container — the
`</ul>` is emitted only at end of input, after the heading or rule
element, contradicting the claim that any non-list line closes it. -/
theorem list_close_heading_counterexample :
    markdownToHtmlLines "- a\n# x" = ["<ul>", "<li>a</li>", "<h1>x</h1>", "</ul>"]
    ∧ markdownToHtmlLines "- a\n# x" ≠ ["<ul>", "<li>a</li>", "</ul>", "<h1>x</h1>"]
    ∧ markdownToHtmlLines "- a\n---" = ["<ul>", "<li>a</li>", "<hr>", "</ul>"] := by
  refine ⟨by decide, by decide, by decide⟩

lemma pyReplaceChar_append (pat : Char) (repl : List Char) (xs ys : List Char) :
    pyReplaceChar pat repl (xs ++ ys)
      = pyReplaceChar pat repl xs ++ pyReplaceChar pat repl ys := by
  induction xs with
  | nil => rfl
  | cons c cs ih =>
    simp only [List.cons_append, pyReplaceChar, List.append_eq, ih, List.append_assoc]

lemma escape_chain_single (c : Char) :
    pyReplaceChar '>' "&gt;".data
      (pyReplaceChar '<' "&lt;".data (if c = '&' then "&amp;".data else [c]))
    = escChar c := by
  by_cases h1 : c = '&'
  · subst h1; decide
  · by_cases h2 : c = '<'
    · subst h2; decide
    · by_cases h3 : c = '>'
      · subst h3; decide
      · simp [escChar, h1, h2, h3, pyReplaceChar]

lemma escape_chain (cs : List Char) :
    pyReplaceChar '>' "&gt;".data
      (pyReplaceChar '<' "&lt;".data (pyReplaceChar '&' "&amp;".data cs))
    = escapeAll cs := by
  induction cs with
  | nil => rfl
  | cons c cs ih =>
    have h0 : pyReplaceChar '&' "&amp;".data (c :: cs)
        = (if c = '&' then "&amp;".data else [c]) ++ pyReplaceChar '&' "&amp;".data cs := rfl
    rw [h0, pyReplaceChar_append, pyReplaceChar_append, ih, escape_chain_single]
    rfl

lemma escapeHtml_eq_escapeAll (s : String) :
    escapeHtml s = String.mk (escapeAll s.data) := by
  unfold escapeHtml
  rw [escape_chain]

/-- C3: the escape step rewrites the whole input in a single
character-wise pass — `&` is replaced first, so each of `&`, `<`, `>`
is escaped exactly once and no output of a replacement is re-escaped —
and `<script>` becomes `&lt;script&gt;`; the escape happens before
structural parsing, so the escaped text reaches the emitted paragraph. -/
theorem escape_single_pass :
    (∀ s : String, escapeHtml s = String.mk (escapeAll s.data))
    ∧ escapeHtml "<script>" = "&lt;script&gt;"
    ∧ markdown_to_html "<script>" = "<p>&lt;script&gt;</p>" :=
  ⟨escapeHtml_eq_escapeAll, by decide, by decide⟩

lemma dropWhile_self_idem (p : Char → Bool) (l : List Char) :
    (l.dropWhile p).dropWhile p = l.dropWhile p := by
  induction l with
  | nil => rfl
  | cons c cs ih =>
    by_cases h : p c
    · simp [List.dropWhile_cons, h, ih]
    · simp [List.dropWhile_cons, h]

lemma rstripList_idem (l : List Char) : rstripList (rstripList l) = rstripList l := by
  unfold rstripList
  rw [List.reverse_reverse, dropWhile_self_idem]

lemma pyRstrip_idem (s : String) : pyRstrip (pyRstrip s) = pyRstrip s := by
  show String.mk (rstripList (rstripList s.data)) = String.mk (rstripList s.data)
  rw [rstripList_idem]

/-- C10: every line is right-stripped before classification, so
processing a raw line equals processing its stripped form; concretely,
a rule with trailing spaces is still a rule, a whitespace-only line is
blank, fence lines with trailing whitespace still toggle the code
block, and a code-block line loses its trailing whitespace (it is not
emitted fully verbatim). -/
theorem rstrip_before_classification :
    (∀ (st : TState) (raw : String), processLine st raw = processLine st (pyRstrip raw))
    ∧ markdown_to_html "---  " = "<hr>"
    ∧ markdown_to_html "   " = "<br>"
    ∧ markdown_to_html "```  \nab  \n``` " = "<pre><code>\nab\n</code></pre>" := by
  refine ⟨fun st raw => ?_, by decide, by decide, by decide⟩
  show classifyLine st (pyRstrip raw) = classifyLine st (pyRstrip (pyRstrip raw))
  rw [pyRstrip_idem]

lemma data_append (a b : String) : (a ++ b).data = a.data ++ b.data := rfl

lemma listStarts_append_self (p x : List Char) : listStarts p (p ++ x) = true := by
  induction p with
  | nil => rfl
  | cons c cs ih => simp [listStarts, ih]

lemma pyStartswith_append2 (p a b : String) : pyStartswith p (p ++ a ++ b) = true := by
  show listStarts p.data ((p ++ a ++ b).data) = true
  have h : (p ++ a ++ b).data = p.data ++ (a.data ++ b.data) := by
    rw [data_append, data_append, List.append_assoc]
  rw [h]
  exact listStarts_append_self p.data _

lemma startswith_ne (p a b : String)
    (ha : pyStartswith p a = true) (hb : pyStartswith p b = false) : a ≠ b := by
  intro e
  rw [e, hb] at ha
  cases ha

lemma wrap_ne (p a b tag : String) (htag : pyStartswith p tag = false) :
    p ++ a ++ b ≠ tag :=
  startswith_ne p _ tag (pyStartswith_append2 p a b) htag

lemma processLine_fence (st : TState) (raw : String)
    (hf : isFenceLine (pyRstrip raw) = true) :
    processLine st raw =
      if st.inCodeBlock then
        { st with inCodeBlock := false, htmlLines := st.htmlLines ++ ["</code></pre>"] }
      else
        { st with inCodeBlock := true, htmlLines := st.htmlLines ++ ["<pre><code>"] } := by
  unfold processLine classifyLine
  cases hb : st.inCodeBlock
  · simp [hf, hb]
  · simp [hf, hb]

lemma processLine_inCode (st : TState) (raw : String)
    (hf : isFenceLine (pyRstrip raw) = false) (hc : st.inCodeBlock = true) :
    processLine st raw = { st with htmlLines := st.htmlLines ++ [pyRstrip raw] } := by
  unfold processLine classifyLine
  simp [hf, hc]

lemma processLines_append (a b : List String) : ∀ st : TState,
    processLines st (a ++ b) = processLines (processLines st a) b := by
  induction a with
  | nil => intro st; rfl
  | cons l ls ih =>
    intro st
    simp only [List.cons_append, processLines]
    exact ih _

lemma processLines_code_verbatim (body : List String) : ∀ st : TState,
    st.inCodeBlock = true → (∀ l ∈ body, isFenceLine (pyRstrip l) = false) →
    processLines st body = { st with htmlLines := st.htmlLines ++ body.map pyRstrip } := by
  induction body with
  | nil => intro st _ _; simp [processLines]
  | cons l ls ih =>
    intro st hc hb
    simp only [processLines]
    rw [processLine_inCode st l (hb l (List.mem_cons_self _ _)) hc]
    rw [ih { st with htmlLines := st.htmlLines ++ [pyRstrip l] } hc
      (fun x hx => hb x (List.mem_cons_of_mem _ hx))]
    simp [List.append_assoc]

/-- C6: a balanced fenced block — an opening fence line, body lines
none of which is a fence, then a closing fence line — emits exactly one
code-block opening tag, then every body line verbatim (only
right-stripped, with no inline substitution applied), then exactly one
closing tag; the code-block flag is balanced back to false and the list
state is untouched. -/
theorem fenced_block_verbatim (st : TState) (openL closeL : String) (body : List String)
    (hst : st.inCodeBlock = false)
    (ho : isFenceLine (pyRstrip openL) = true)
    (hcl : isFenceLine (pyRstrip closeL) = true)
    (hb : ∀ l ∈ body, isFenceLine (pyRstrip l) = false) :
    processLines st (openL :: (body ++ [closeL])) =
      { st with
        htmlLines := st.htmlLines
          ++ "<pre><code>" :: (body.map pyRstrip ++ ["</code></pre>"]),
        inCodeBlock := false } := by
  simp only [processLines]
  rw [processLine_fence st openL ho, if_neg (by simp [hst])]
  rw [processLines_append]
  rw [processLines_code_verbatim body _ rfl hb]
  simp only [processLines]
  rw [processLine_fence _ closeL hcl, if_pos rfl]
  simp [List.append_assoc]

/-- Witness for C6: the block around the single line of two-star text
keeps it literal — it is not wrapped in a strong element. -/
theorem fenced_block_verbatim_witness :
    processLines ⟨[], false, false⟩ ("```" :: (["**not bold**"] ++ ["```"])) =
      { htmlLines := ["<pre><code>", "**not bold**", "</code></pre>"],
        inCodeBlock := false, inList := false } :=
  (fenced_block_verbatim ⟨[], false, false⟩ "```" "```" ["**not bold**"] rfl (by decide)
      (by decide) (by decide)).trans (by decide)

/-- C4 amended: outside a code block, with a list open, only a blank
line or a plain paragraph line closes the list, emitting `</ul>`
immediately before that line's own element; a code-fence line, a
heading line or a horizontal-rule line leaves the list open and emits
its element without any `</ul>` before it (the list is then closed only
by a later blank/paragraph line or at end of input). -/
theorem list_close_amended (st : TState) (raw : String)
    (hcode : st.inCodeBlock = false) (hlist : st.inList = true)
    (hnl : isListItemLine (pyRstrip raw) = false) :
    (isFenceLine (pyRstrip raw) = false → isHeadingLine (pyRstrip raw) = false →
      isHrLine (pyRstrip raw) = false →
      (processLine st raw).inList = false
      ∧ ∃ e, (processLine st raw).htmlLines = st.htmlLines ++ ["</ul>", e])
    ∧ ((isFenceLine (pyRstrip raw) = true ∨ isHeadingLine (pyRstrip raw) = true
        ∨ isHrLine (pyRstrip raw) = true) →
      (processLine st raw).inList = true
      ∧ ∃ e, (processLine st raw).htmlLines = st.htmlLines ++ [e] ∧ e ≠ "</ul>") := by
  constructor
  · intro hf hh hhr
    obtain ⟨⟨h3, h2⟩, h1⟩ :
        (pyStartswith "### " (pyRstrip raw) = false
          ∧ pyStartswith "## " (pyRstrip raw) = false)
        ∧ pyStartswith "# " (pyRstrip raw) = false := by
      simpa [isHeadingLine] using hh
    by_cases hb : pyRstrip raw = ""
    · have hstep : processLine st raw
          = { st with inList := false, htmlLines := st.htmlLines ++ ["</ul>", "<br>"] } := by
        unfold processLine classifyLine
        simp +decide [hf, hcode, h3, h2, h1, hnl, hhr, hb, hlist]
      rw [hstep]
      exact ⟨rfl, "<br>", rfl⟩
    · have hstep : processLine st raw
          = { st with inList := false,
                      htmlLines := st.htmlLines
                        ++ ["</ul>",
                            "<p>" ++ subLink (subCode (subBold (pyRstrip raw))) ++ "</p>"] } := by
        unfold processLine classifyLine
        simp [hf, hcode, h3, h2, h1, hnl, hhr, hb, hlist]
      rw [hstep]
      exact ⟨rfl, "<p>" ++ subLink (subCode (subBold (pyRstrip raw))) ++ "</p>", rfl⟩
  · intro hOr
    by_cases hf : isFenceLine (pyRstrip raw) = true
    · have hstep : processLine st raw
          = { st with inCodeBlock := true, htmlLines := st.htmlLines ++ ["<pre><code>"] } := by
        unfold processLine classifyLine
        simp [hf, hcode]
      rw [hstep]
      exact ⟨hlist, "<pre><code>", rfl, by decide⟩
    · replace hf : isFenceLine (pyRstrip raw) = false := by
        simpa using hf
      by_cases h3 : pyStartswith "### " (pyRstrip raw) = true
      · have hstep : processLine st raw
            = { st with htmlLines := st.htmlLines
                  ++ ["<h3>" ++ strDrop 4 (pyRstrip raw) ++ "</h3>"] } := by
          unfold processLine classifyLine
          simp [hf, hcode, h3]
        rw [hstep]
        exact ⟨hlist, _, rfl, wrap_ne "<h3>" _ "</h3>" "</ul>" (by decide)⟩
      · replace h3 : pyStartswith "### " (pyRstrip raw) = false := by simpa using h3
        by_cases h2 : pyStartswith "## " (pyRstrip raw) = true
        · have hstep : processLine st raw
              = { st with htmlLines := st.htmlLines
                    ++ ["<h2>" ++ strDrop 3 (pyRstrip raw) ++ "</h2>"] } := by
            unfold processLine classifyLine
            simp [hf, hcode, h3, h2]
          rw [hstep]
          exact ⟨hlist, _, rfl, wrap_ne "<h2>" _ "</h2>" "</ul>" (by decide)⟩
        · replace h2 : pyStartswith "## " (pyRstrip raw) = false := by simpa using h2
          by_cases h1 : pyStartswith "# " (pyRstrip raw) = true
          · have hstep : processLine st raw
                = { st with htmlLines := st.htmlLines
                      ++ ["<h1>" ++ strDrop 2 (pyRstrip raw) ++ "</h1>"] } := by
              unfold processLine classifyLine
              simp [hf, hcode, h3, h2, h1]
            rw [hstep]
            exact ⟨hlist, _, rfl, wrap_ne "<h1>" _ "</h1>" "</ul>" (by decide)⟩
          · replace h1 : pyStartswith "# " (pyRstrip raw) = false := by simpa using h1
            by_cases hhr : isHrLine (pyRstrip raw) = true
            · have hstep : processLine st raw
                  = { st with htmlLines := st.htmlLines ++ ["<hr>"] } := by
                unfold processLine classifyLine
                simp [hf, hcode, h3, h2, h1, hnl, hhr]
              rw [hstep]
              exact ⟨hlist, "<hr>", rfl, by decide⟩
            · exfalso
              rcases hOr with h | h | h
              · rw [hf] at h; cases h
              · have : isHeadingLine (pyRstrip raw) = false := by
                  simp [isHeadingLine, h3, h2, h1]
                rw [this] at h; cases h
              · replace hhr : isHrLine (pyRstrip raw) = false := by simpa using hhr
                rw [hhr] at h; cases h

/-- Witness for C4 amended: a heading line after an open list leaves
the list open and emits only the heading element, no `</ul>`. -/
theorem list_close_amended_witness :
    (processLine ⟨["<ul>", "<li>a</li>"], false, true⟩ "# x").inList = true
    ∧ ∃ e, (processLine ⟨["<ul>", "<li>a</li>"], false, true⟩ "# x").htmlLines
        = ["<ul>", "<li>a</li>"] ++ [e] ∧ e ≠ "</ul>" :=
  (list_close_amended ⟨["<ul>", "<li>a</li>"], false, true⟩ "# x" rfl rfl (by decide)).2
    (Or.inr (Or.inl (by decide)))

lemma not_lt_escapeAll (cs : List Char) : '<' ∉ escapeAll cs := by
  induction cs with
  | nil => simp [escapeAll]
  | cons c cs ih =>
    simp only [escapeAll, List.mem_append]
    rintro (h | h)
    · unfold escChar at h
      split_ifs at h with e1 e2 e3
      · exact absurd h (by decide)
      · exact absurd h (by decide)
      · exact absurd h (by decide)
      · simp at h
        exact e2 h.symm
    · exact ih h

lemma mem_pySplitChar (sep : Char) : ∀ (cs g : List Char),
    g ∈ pySplitChar sep cs → ∀ c ∈ g, c ∈ cs := by
  intro cs
  induction cs with
  | nil =>
    intro g hg c hc
    simp [pySplitChar] at hg
    subst hg
    simp at hc
  | cons x xs ih =>
    intro g hg c hc
    unfold pySplitChar at hg
    cases h : pySplitChar sep xs with
    | nil =>
      rw [h] at hg
      simp at hg
      subst hg
      simp at hc
    | cons g0 gs =>
      rw [h] at hg
      by_cases hx : x = sep
      · simp [hx] at hg
        rcases hg with hg | hg | hg
        · subst hg; simp at hc
        · exact List.mem_cons_of_mem _ (ih g0 (by rw [h]; exact List.mem_cons_self _ _) c (hg ▸ hc))
        · exact List.mem_cons_of_mem _ (ih g (by rw [h]; exact List.mem_cons_of_mem _ hg) c hc)
      · simp [hx] at hg
        rcases hg with hg | hg
        · subst hg
          rcases List.mem_cons.mp hc with hcx | hc0
          · exact hcx ▸ List.mem_cons_self _ _
          · exact List.mem_cons_of_mem _ (ih g0 (by rw [h]; exact List.mem_cons_self _ _) c hc0)
        · exact List.mem_cons_of_mem _ (ih g (by rw [h]; exact List.mem_cons_of_mem _ hg) c hc)

lemma dropWhile_mem (p : Char → Bool) (l : List Char) :
    ∀ c ∈ l.dropWhile p, c ∈ l := by
  induction l with
  | nil => intro c h; simp at h
  | cons x xs ih =>
    intro c h
    rw [List.dropWhile_cons] at h
    by_cases hp : p x = true
    · simp only [hp, if_true] at h
      exact List.mem_cons_of_mem _ (ih c h)
    · simp only [hp, if_false] at h
      exact h

lemma mem_of_mem_rstripList (c : Char) (l : List Char) (h : c ∈ rstripList l) : c ∈ l := by
  unfold rstripList at h
  rw [List.mem_reverse] at h
  have h2 := dropWhile_mem isPySpace l.reverse c h
  rwa [List.mem_reverse] at h2

lemma split_line_no_lt (md l : String) (hl : l ∈ pySplitLines (escapeHtml md)) :
    '<' ∉ (pyRstrip l).data := by
  rcases List.mem_map.mp hl with ⟨g, hg, rfl⟩
  intro hmem
  have h1 : '<' ∈ g := mem_of_mem_rstripList '<' g hmem
  have h2 : '<' ∈ (escapeHtml md).data :=
    mem_pySplitChar '\n' (escapeHtml md).data g hg '<' h1
  rw [escapeHtml_eq_escapeAll] at h2
  exact not_lt_escapeAll md.data h2

lemma line_ne_tags (md : String) : ∀ l ∈ pySplitLines (escapeHtml md),
    pyRstrip l ≠ "<pre><code>" ∧ pyRstrip l ≠ "</code></pre>" := by
  intro l hl
  have hno := split_line_no_lt md l hl
  constructor
  · intro he
    rw [he] at hno
    exact hno (by decide)
  · intro he
    rw [he] at hno
    exact hno (by decide)

lemma countStr_append (x : String) (a b : List String) :
    countStr x (a ++ b) = countStr x a + countStr x b := by
  induction a with
  | nil => simp [countStr]
  | cons y ys ih =>
    simp [countStr, ih]
    omega

lemma processLine_flags (st : TState) (raw : String)
    (hf : isFenceLine (pyRstrip raw) = false) :
    (processLine st raw).inCodeBlock = st.inCodeBlock := by
  unfold processLine classifyLine
  simp only [hf, Bool.false_eq_true, if_false]
  split_ifs <;> rfl

set_option maxHeartbeats 2000000 in
lemma processLine_count (st : TState) (raw : String)
    (hr1 : pyRstrip raw ≠ "<pre><code>") (hr2 : pyRstrip raw ≠ "</code></pre>")
    (h : countStr "<pre><code>" st.htmlLines
        = countStr "</code></pre>" st.htmlLines + st.inCodeBlock.toNat) :
    countStr "<pre><code>" (processLine st raw).htmlLines
      = countStr "</code></pre>" (processLine st raw).htmlLines
        + (processLine st raw).inCodeBlock.toNat := by
  have n3o : ∀ s : String, "<h3>" ++ s ++ "</h3>" ≠ "<pre><code>" :=
    fun s => wrap_ne "<h3>" s "</h3>" "<pre><code>" (by decide)
  have n3c : ∀ s : String, "<h3>" ++ s ++ "</h3>" ≠ "</code></pre>" :=
    fun s => wrap_ne "<h3>" s "</h3>" "</code></pre>" (by decide)
  have n2o : ∀ s : String, "<h2>" ++ s ++ "</h2>" ≠ "<pre><code>" :=
    fun s => wrap_ne "<h2>" s "</h2>" "<pre><code>" (by decide)
  have n2c : ∀ s : String, "<h2>" ++ s ++ "</h2>" ≠ "</code></pre>" :=
    fun s => wrap_ne "<h2>" s "</h2>" "</code></pre>" (by decide)
  have n1o : ∀ s : String, "<h1>" ++ s ++ "</h1>" ≠ "<pre><code>" :=
    fun s => wrap_ne "<h1>" s "</h1>" "<pre><code>" (by decide)
  have n1c : ∀ s : String, "<h1>" ++ s ++ "</h1>" ≠ "</code></pre>" :=
    fun s => wrap_ne "<h1>" s "</h1>" "</code></pre>" (by decide)
  have nlo : ∀ s : String, "<li>" ++ s ++ "</li>" ≠ "<pre><code>" :=
    fun s => wrap_ne "<li>" s "</li>" "<pre><code>" (by decide)
  have nlc : ∀ s : String, "<li>" ++ s ++ "</li>" ≠ "</code></pre>" :=
    fun s => wrap_ne "<li>" s "</li>" "</code></pre>" (by decide)
  have npo : ∀ s : String, "<p>" ++ s ++ "</p>" ≠ "<pre><code>" :=
    fun s => wrap_ne "<p>" s "</p>" "<pre><code>" (by decide)
  have npc : ∀ s : String, "<p>" ++ s ++ "</p>" ≠ "</code></pre>" :=
    fun s => wrap_ne "<p>" s "</p>" "</code></pre>" (by decide)
  unfold processLine classifyLine
  split_ifs <;>
    simp_all [countStr_append, countStr]

lemma processLines_count (lines : List String) : ∀ st : TState,
    (∀ l ∈ lines, pyRstrip l ≠ "<pre><code>" ∧ pyRstrip l ≠ "</code></pre>") →
    countStr "<pre><code>" st.htmlLines
      = countStr "</code></pre>" st.htmlLines + st.inCodeBlock.toNat →
    countStr "<pre><code>" (processLines st lines).htmlLines
      = countStr "</code></pre>" (processLines st lines).htmlLines
        + (processLines st lines).inCodeBlock.toNat := by
  induction lines with
  | nil => intro st _ h; exact h
  | cons l ls ih =>
    intro st hl h
    simp only [processLines]
    exact ih _ (fun x hx => hl x (List.mem_cons_of_mem _ hx))
      (processLine_count st l (hl l (List.mem_cons_self _ _)).1
        (hl l (List.mem_cons_self _ _)).2 h)

lemma processLine_fence_toggle (st : TState) (raw : String)
    (hf : isFenceLine (pyRstrip raw) = true) :
    (processLine st raw).inCodeBlock = !st.inCodeBlock := by
  rw [processLine_fence st raw hf]
  cases hb : st.inCodeBlock <;> simp [hb]

lemma processLines_parity (lines : List String) : ∀ st : TState,
    (processLines st lines).inCodeBlock
      = ((decide ((lines.countP (fun l => isFenceLine (pyRstrip l))) % 2 = 1)).xor
          st.inCodeBlock) := by
  induction lines with
  | nil =>
    intro st
    simp [processLines]
  | cons l ls ih =>
    intro st
    simp only [processLines]
    rw [ih]
    by_cases hf : isFenceLine (pyRstrip l) = true
    · have hnat : ∀ c : Nat, decide ((c + 1) % 2 = 1) = !decide (c % 2 = 1) := by
        intro c
        rcases Nat.mod_two_eq_zero_or_one c with hc | hc <;> simp [Nat.add_mod, hc]
      have hx : ∀ a b : Bool, a.xor (!b) = (!a).xor b := by decide
      rw [processLine_fence_toggle st l hf, List.countP_cons]
      simp only [hf, if_true]
      rw [hnat]
      exact hx _ _
    · replace hf : isFenceLine (pyRstrip l) = false := by simpa using hf
      rw [processLine_flags st l hf, List.countP_cons]
      simp [hf]

/-- C7: when the number of fence lines is odd — the final fenced block
is unterminated — the emitted output contains one more code-block
opening tag than closing tags (no closing tag is auto-emitted at end of
input), and the only end-of-input emission is the `</ul>` for a
still-open list (nothing when no list is open). -/
theorem unterminated_fence_no_autoclose (md : String)
    (h : (pySplitLines (escapeHtml md)).countP
        (fun l => isFenceLine (pyRstrip l)) % 2 = 1) :
    countStr "<pre><code>" (markdownToHtmlLines md)
      = countStr "</code></pre>" (markdownToHtmlLines md) + 1
    ∧ markdownToHtmlLines md
      = (transcodeState md).htmlLines
        ++ (if (transcodeState md).inList then ["</ul>"] else []) := by
  have hpar : (transcodeState md).inCodeBlock = true := by
    unfold transcodeState
    rw [processLines_parity]
    simp [h]
  have hinv := processLines_count (pySplitLines (escapeHtml md)) ⟨[], false, false⟩
    (line_ne_tags md) (by simp [countStr])
  have hinv2 : countStr "<pre><code>" (transcodeState md).htmlLines
      = countStr "</code></pre>" (transcodeState md).htmlLines + 1 := by
    rw [show processLines ⟨[], false, false⟩ (pySplitLines (escapeHtml md))
      = transcodeState md from rfl] at hinv
    rw [hpar] at hinv
    simpa using hinv
  constructor
  · cases hl : (transcodeState md).inList
    · have hml : markdownToHtmlLines md = (transcodeState md).htmlLines := by
        simp [markdownToHtmlLines, hl]
      rw [hml]
      exact hinv2
    · have hml : markdownToHtmlLines md
          = (transcodeState md).htmlLines ++ ["</ul>"] := by
        simp [markdownToHtmlLines, hl]
      rw [hml, countStr_append, countStr_append]
      simp [countStr, hinv2]
  · cases hl : (transcodeState md).inList
    · simp [markdownToHtmlLines, hl]
    · simp [markdownToHtmlLines, hl]

/-- Witness for C7: a list followed by an unterminated fence — the
output closes the list but not the code block. -/
theorem unterminated_fence_no_autoclose_witness :
    countStr "<pre><code>" (markdownToHtmlLines "- a\n```\ncode")
      = countStr "</code></pre>" (markdownToHtmlLines "- a\n```\ncode") + 1
    ∧ markdownToHtmlLines "- a\n```\ncode"
      = (transcodeState "- a\n```\ncode").htmlLines
        ++ (if (transcodeState "- a\n```\ncode").inList then ["</ul>"] else []) :=
  unterminated_fence_no_autoclose "- a\n```\ncode" (by decide)
